import Mathlib

/-!
Verification of the graviton-bridge iframe extension
(`src/web/graviton-bridge.js`).

The development shallowly embeds the bridge's pure helpers
(`isApiPromptFormat`, `normalizeApiPrompt`, `extractWorkflowPayload`,
`safeGraphSnapshot`, `exportPromptSnapshot`), its readiness polling
(`waitForCanvasReady` / `waitForUiRuntimeReady` / `waitForHostReady`),
the `importWorkflow` retry loop, and the message-router / command-queue
event loop, and proves the spec-level properties about them.
-/

/-- JavaScript values, as far as the bridge inspects them: `null`,
`undefined`, booleans, numbers (integers plus a separate `NaN`), strings,
arrays, and plain objects modelled as insertion-ordered key/value lists
with unique keys. -/
inductive JSValue where
  | null
  | undefined
  | bool (b : Bool)
  | num (n : Int)
  | nan
  | str (s : String)
  | arr (elems : List JSValue)
  | obj (fields : List (String × JSValue))

/-- JavaScript truthiness: `false`, `0`, `NaN`, the empty string, `null`
and `undefined` are falsy; every object, array and other primitive is
truthy. -/
def truthy : JSValue → Bool
  | .null => false
  | .undefined => false
  | .bool b => b
  | .num n => !(n == 0)
  | .nan => false
  | .str s => !(s == "")
  | .arr _ => true
  | .obj _ => true

/-- `typeof v === 'object'`: true for `null`, arrays and plain objects. -/
def typeofIsObject : JSValue → Bool
  | .null => true
  | .arr _ => true
  | .obj _ => true
  | _ => false

/-- `Array.isArray(v)`. -/
def isArray : JSValue → Bool
  | .arr _ => true
  | _ => false

/-- `typeof v === 'string'`. -/
def isStringVal : JSValue → Bool
  | .str _ => true
  | _ => false

/-- `v === null || v === undefined` (what `??` and `?.` trigger on). -/
def isNullish : JSValue → Bool
  | .null => true
  | .undefined => true
  | _ => false

/-- Property access `v[k]`: the field value on a plain object holding the
key, `undefined` otherwise. -/
def getProp : JSValue → String → JSValue
  | .obj fields, k => (List.lookup k fields).getD .undefined
  | _, _ => .undefined

/-- `Object.values(v)` for a plain object, `[]` otherwise (the bridge only
calls it behind an object guard). -/
def objValues : JSValue → List JSValue
  | .obj fields => fields.map (fun kv => kv.2)
  | _ => []

/-- The per-value check inside `isApiPromptFormat`'s `values.every`, which
is verbatim the entry filter of `normalizeApiPrompt` as well: the value is
a truthy non-array object whose `class_type` is a string and whose
`inputs` is a truthy non-array object. -/
def nodeConforms (node : JSValue) : Bool :=
  if !truthy node || !typeofIsObject node || isArray node then false
  else
    isStringVal (getProp node "class_type") &&
    truthy (getProp node "inputs") &&
    typeofIsObject (getProp node "inputs") &&
    !isArray (getProp node "inputs")

/-- `isApiPromptFormat` from the source: a truthy non-array object whose
value list is non-empty and all of whose values conform. -/
def isApiPromptFormat (workflow : JSValue) : Bool :=
  if !truthy workflow || !typeofIsObject workflow || isArray workflow then false
  else
    let values := objValues workflow
    if values.isEmpty then false
    else values.all nodeConforms

/-- `normalizeApiPrompt` from the source: non-objects pass through; a plain
object is rebuilt keeping exactly the entries whose value conforms. -/
def normalizeApiPrompt (workflow : JSValue) : JSValue :=
  if !truthy workflow || !typeofIsObject workflow || isArray workflow then workflow
  else
    match workflow with
    | .obj fields => .obj (fields.filter (fun kv => nodeConforms kv.2))
    | v => v

/-- The unwrap condition of `extractWorkflowPayload`:
`input.workflow && typeof input.workflow === 'object'`. -/
def hasObjectWorkflowField (input : JSValue) : Bool :=
  truthy (getProp input "workflow") && typeofIsObject (getProp input "workflow")

/-- `extractWorkflowPayload` from the source: one level of envelope
unwrapping. -/
def extractWorkflowPayload (input : JSValue) : JSValue :=
  if !truthy input || !typeofIsObject input || isArray input then input
  else
    if hasObjectWorkflowField input then getProp input "workflow"
    else input

/-- The normalization pipeline inside `importWorkflow`: unwrap, classify,
and filter only when classified as API-prompt form. -/
def normalizePipeline (workflow : JSValue) : JSValue :=
  let extracted := extractWorkflowPayload workflow
  if isApiPromptFormat extracted then normalizeApiPrompt extracted else extracted

/-- `v` is a plain (non-null, non-array) object. -/
def isPlainObject : JSValue → Bool
  | .obj _ => true
  | _ => false

/-- Modelled from the spec: the operation-record shape, "a non-array
object with a string operation kind and a non-array object parameters
mapping". -/
def specOperationRecord (v : JSValue) : Bool :=
  isPlainObject v && isStringVal (getProp v "class_type") &&
    isPlainObject (getProp v "inputs")

/-- Modelled from the spec: the PromptForm classification, "a non-array
object that is non-empty and every one of its values satisfies the
operation-record shape". -/
def specIsPromptForm : JSValue → Bool
  | .obj fields => !fields.isEmpty && fields.all (fun kv => specOperationRecord kv.2)
  | _ => false

theorem nodeConforms_eq_specOperationRecord (v : JSValue) :
    nodeConforms v = specOperationRecord v := by
  cases v with
  | obj fields =>
    cases h : getProp (JSValue.obj fields) "inputs" <;>
      simp [nodeConforms, specOperationRecord, truthy, typeofIsObject,
        isArray, isPlainObject, h]
  | null => rfl
  | undefined => rfl
  | bool b => cases b <;> rfl
  | num n =>
    simp [nodeConforms, specOperationRecord, truthy, typeofIsObject,
      isArray, isPlainObject]
  | nan => rfl
  | str s =>
    simp [nodeConforms, specOperationRecord, truthy, typeofIsObject,
      isArray, isPlainObject]
  | arr es => rfl

theorem all_values_conform_eq (l : List (String × JSValue)) :
    (l.map (fun kv => kv.2)).all nodeConforms
      = l.all (fun kv => specOperationRecord kv.2) := by
  induction l with
  | nil => rfl
  | cons hd tl ih => simp [nodeConforms_eq_specOperationRecord, ih]

theorem promptFormat_eq_spec (v : JSValue) :
    isApiPromptFormat v = specIsPromptForm v := by
  cases v with
  | obj fields =>
    cases fields with
    | nil => rfl
    | cons hd tl =>
      simp [isApiPromptFormat, specIsPromptForm, truthy, typeofIsObject,
        isArray, objValues, all_values_conform_eq,
        nodeConforms_eq_specOperationRecord]
  | null => rfl
  | undefined => rfl
  | bool b => cases b <;> rfl
  | num n =>
    simp [isApiPromptFormat, specIsPromptForm, truthy, typeofIsObject, isArray]
  | nan => rfl
  | str s =>
    simp [isApiPromptFormat, specIsPromptForm, truthy, typeofIsObject, isArray]
  | arr es => rfl

/-- C6: the classifier accepts a value as PromptForm exactly when it is a
non-empty plain (non-array, non-null) object all of whose values have the
operation-record shape; every other input is classified GraphForm. -/
theorem C6_classifier_iff_promptform_shape (v : JSValue) :
    isApiPromptFormat v = specIsPromptForm v :=
  promptFormat_eq_spec v

theorem normalize_keeps_promptform (w : JSValue)
    (h : isApiPromptFormat w = true) : normalizeApiPrompt w = w := by
  cases w with
  | obj fields =>
    rw [promptFormat_eq_spec] at h
    simp only [specIsPromptForm, Bool.and_eq_true, List.all_eq_true] at h
    have hall : ∀ kv ∈ fields, (fun kv : String × JSValue => nodeConforms kv.2) kv = true := by
      intro kv hkv
      simpa [nodeConforms_eq_specOperationRecord] using h.2 kv hkv
    simp [normalizeApiPrompt, truthy, typeofIsObject, isArray,
      List.filter_eq_self.mpr hall]
  | null => simp [isApiPromptFormat, truthy] at h
  | undefined => simp [isApiPromptFormat, truthy] at h
  | bool b => simp [isApiPromptFormat, truthy, typeofIsObject] at h
  | num n => simp [isApiPromptFormat, truthy, typeofIsObject] at h
  | nan => simp [isApiPromptFormat, truthy] at h
  | str s => simp [isApiPromptFormat, truthy, typeofIsObject] at h
  | arr es => simp [isApiPromptFormat, isArray] at h

/-- C7: on a document classified as PromptForm the filtering pass keeps
every entry, so normalization leaves the document identical
(normalization is idempotent on PromptForm documents). -/
theorem C7_normalize_idempotent_on_promptform (w : JSValue)
    (h : isApiPromptFormat w = true) : normalizeApiPrompt w = w :=
  normalize_keeps_promptform w h

theorem C7_normalize_idempotent_witness :
    isApiPromptFormat (JSValue.obj [("1", JSValue.obj
      [("class_type", JSValue.str "KSampler"), ("inputs", JSValue.obj [])])]) = true ∧
    normalizeApiPrompt (JSValue.obj [("1", JSValue.obj
      [("class_type", JSValue.str "KSampler"), ("inputs", JSValue.obj [])])]) =
      JSValue.obj [("1", JSValue.obj
      [("class_type", JSValue.str "KSampler"), ("inputs", JSValue.obj [])])] :=
  ⟨by rfl, C7_normalize_idempotent_on_promptform _ (by rfl)⟩

theorem extract_fixpoint_of_no_wrapper (X : JSValue)
    (hobj : typeofIsObject X = true) (htr : truthy X = true)
    (hnw : hasObjectWorkflowField X = false) :
    extractWorkflowPayload X = X := by
  cases X <;> simp_all [extractWorkflowPayload, truthy, typeofIsObject, isArray]

theorem extract_unwraps_once (Y : JSValue)
    (htr : truthy Y = true) (hobj : typeofIsObject Y = true) :
    extractWorkflowPayload (JSValue.obj [("workflow", Y)]) = Y := by
  have hw : getProp (JSValue.obj [("workflow", Y)]) "workflow" = Y := by
    simp [getProp, List.lookup]
  have hcond : hasObjectWorkflowField (JSValue.obj [("workflow", Y)]) = true := by
    rw [hasObjectWorkflowField, hw, htr, hobj]; rfl
  simp [extractWorkflowPayload, truthy, typeofIsObject, isArray, hcond, hw]

/-- C8 counterexample: the claim quantifies over every `X` that is not a
two-level wrapper, but for a primitive `X` such as the string `"x"` the
envelope `{workflow: X}` is not unwrapped at all (the unwrap condition
requires an object-valued field), so `normalize {workflow: X}` differs from
`normalize X`. -/
theorem C8_counterexample :
    hasObjectWorkflowField (JSValue.str "x") = false ∧
    normalizePipeline (JSValue.obj [("workflow", JSValue.str "x")]) ≠
      normalizePipeline (JSValue.str "x") := by
  refine ⟨rfl, ?_⟩
  intro h
  have h' : JSValue.obj [("workflow", JSValue.str "x")] = JSValue.str "x" := h
  exact JSValue.noConfusion h'

/-- C8 amended: for every `X` that is truthy with `typeof X === 'object'`
(a plain object or an array) and does not itself carry an object-valued
`workflow` field, normalizing `{workflow: X}` equals normalizing `X`
directly; and the unwrap step replaces an envelope by its payload exactly
once, never twice, even when the payload is itself a wrapper. -/
theorem C8_amended_single_level_unwrap (X : JSValue)
    (hobj : typeofIsObject X = true) (htr : truthy X = true)
    (hnw : hasObjectWorkflowField X = false) :
    normalizePipeline (JSValue.obj [("workflow", X)]) = normalizePipeline X ∧
    (∀ Y : JSValue, truthy Y = true → typeofIsObject Y = true →
      extractWorkflowPayload (JSValue.obj [("workflow", Y)]) = Y) := by
  constructor
  · unfold normalizePipeline
    rw [extract_unwraps_once X htr hobj, extract_fixpoint_of_no_wrapper X hobj htr hnw]
  · intro Y htY hoY
    exact extract_unwraps_once Y htY hoY

theorem C8_amended_witness :
    typeofIsObject (JSValue.obj [("a", JSValue.num 1)]) = true ∧
    truthy (JSValue.obj [("a", JSValue.num 1)]) = true ∧
    hasObjectWorkflowField (JSValue.obj [("a", JSValue.num 1)]) = false ∧
    normalizePipeline (JSValue.obj [("workflow", JSValue.obj [("a", JSValue.num 1)])]) =
      normalizePipeline (JSValue.obj [("a", JSValue.num 1)]) :=
  ⟨rfl, rfl, by rfl,
    (C8_amended_single_level_unwrap (JSValue.obj [("a", JSValue.num 1)])
      rfl rfl (by rfl)).1⟩

/-- One observation of the embedded application's readiness observables:
`Boolean(app.graph)`, `Boolean(app.canvas)`, `Boolean(app.graph?.canvas)`,
`Boolean(window.app)`, `Boolean(window.graph)`, and
`Boolean(window.app?.vueAppReady)`. -/
structure EnvState where
  hasGraph : Bool
  hasAppCanvas : Bool
  hasGraphCanvas : Bool
  hasWindowApp : Bool
  hasWindowGraph : Bool
  vueAppReadyFlag : Bool

/-- The predicate polled by `waitForCanvasReady`:
`Boolean(app.graph) && Boolean(app.canvas || app.graph?.canvas)`. -/
def canvasPred (s : EnvState) : Bool :=
  s.hasGraph && (s.hasAppCanvas || s.hasGraphCanvas)

/-- The predicate polled by `waitForUiRuntimeReady`:
`Boolean(window.app) && Boolean(window.graph)`. -/
def uiRuntimePred (s : EnvState) : Bool :=
  s.hasWindowApp && s.hasWindowGraph

/-- The predicate polled by `waitForHostReady`:
`window.app && window.graph && (window.app && window.app.vueAppReady)`. -/
def hostPred (s : EnvState) : Bool :=
  s.hasWindowApp && s.hasWindowGraph && (s.hasWindowApp && s.vueAppReadyFlag)

/-- Number of 50ms polls fitting in the 10000ms default timeout of each
wait function. -/
def pollBudget : Nat := 200

/-- The polling loop shared by the three wait functions: check the
predicate at tick `t`; on success return the success tick, otherwise sleep
one 50ms tick and retry while the per-wait budget lasts. -/
def runWait (pred : EnvState → Bool) (env : Nat → EnvState) : Nat → Nat → Option Nat
  | _, 0 => none
  | t, b + 1 => if pred (env t) then some t else runWait pred env (t + 1) b

/-- `waitForCanvasReady` started at tick `t` with the default timeout. -/
def waitForCanvasReady (env : Nat → EnvState) (t : Nat) : Option Nat :=
  runWait canvasPred env t pollBudget

/-- `waitForUiRuntimeReady` started at tick `t` with the default timeout. -/
def waitForUiRuntimeReady (env : Nat → EnvState) (t : Nat) : Option Nat :=
  runWait uiRuntimePred env t pollBudget

/-- `waitForHostReady` started at tick `t` with the default timeout. -/
def waitForHostReady (env : Nat → EnvState) (t : Nat) : Option Nat :=
  runWait hostPred env t pollBudget

def canvasTimeoutMsg : String := "Timed out waiting for Comfy canvas initialization"

def uiRuntimeTimeoutMsg : String := "Timed out waiting for Comfy UI runtime initialization"

def hostTimeoutMsg : String := "Timed out waiting for host-ready state"

/-- The sequential readiness block of `setup` (also the precondition block
of `importWorkflow`): await the three waits in order, each with its own
fresh timeout, propagating the first timeout error. Returns the tick at
which the last wait succeeded. -/
def setupReadinessWait (env : Nat → EnvState) : Except String Nat :=
  match waitForCanvasReady env 0 with
  | none => .error canvasTimeoutMsg
  | some t1 =>
    match waitForUiRuntimeReady env t1 with
    | none => .error uiRuntimeTimeoutMsg
    | some t2 =>
      match waitForHostReady env t2 with
      | none => .error hostTimeoutMsg
      | some t3 => .ok t3

/-- Modelled from the spec: the three readiness predicates named by the
claim — graph-object presence, rendering-surface presence, and UI-runtime
full-initialization flag — holding simultaneously in one observation. -/
def specReadySimultaneous (s : EnvState) : Bool :=
  s.hasGraph && (s.hasAppCanvas || s.hasGraphCanvas) && s.vueAppReadyFlag

theorem runWait_eq_some_iff (pred : EnvState → Bool) (env : Nat → EnvState) :
    ∀ b t u, runWait pred env t b = some u ↔
      (t ≤ u ∧ u < t + b ∧ pred (env u) = true ∧
        ∀ v, t ≤ v → v < u → pred (env v) = false) := by
  intro b
  induction b with
  | zero =>
    intro t u
    simp only [runWait]
    constructor
    · intro h; exact absurd h (by simp)
    · rintro ⟨h1, h2, -⟩; omega
  | succ b ih =>
    intro t u
    simp only [runWait]
    by_cases hp : pred (env t) = true
    · simp only [hp, if_true]
      constructor
      · rintro h
        have : t = u := by simpa using h
        subst this
        exact ⟨le_refl t, by omega, hp, fun v hv1 hv2 => absurd (lt_of_le_of_lt hv1 hv2) (lt_irrefl t)⟩
      · rintro ⟨h1, h2, h3, h4⟩
        rcases Nat.eq_or_lt_of_le h1 with heq | hlt
        · subst heq; rfl
        · exact absurd hp (by simp [h4 t (le_refl t) hlt])
    · have hp' : pred (env t) = false := by simpa using hp
      rw [if_neg (by simp [hp']), ih (t + 1) u]
      constructor
      · rintro ⟨h1, h2, h3, h4⟩
        refine ⟨by omega, by omega, h3, fun v hv1 hv2 => ?_⟩
        rcases Nat.eq_or_lt_of_le hv1 with heq | hlt
        · subst heq; simpa using hp
        · exact h4 v (by omega) hv2
      · rintro ⟨h1, h2, h3, h4⟩
        have hne : t ≠ u := by
          intro heq; subst heq; exact hp h3
        exact ⟨by omega, by omega, h3, fun v hv1 hv2 => h4 v (by omega) hv2⟩

theorem runWait_isSome_iff (pred : EnvState → Bool) (env : Nat → EnvState) :
    ∀ b t, (runWait pred env t b).isSome = true ↔
      ∃ u, t ≤ u ∧ u < t + b ∧ pred (env u) = true := by
  intro b
  induction b with
  | zero =>
    intro t
    simp only [runWait, Option.isSome_none]
    constructor
    · intro h; exact absurd h (by simp)
    · rintro ⟨u, h1, h2, -⟩; omega
  | succ b ih =>
    intro t
    simp only [runWait]
    by_cases hp : pred (env t) = true
    · simp only [hp, if_true, Option.isSome_some]
      exact ⟨fun _ => ⟨t, le_refl t, by omega, hp⟩, fun _ => trivial⟩
    · have hp' : pred (env t) = false := by simpa using hp
      rw [if_neg (by simp [hp']), ih (t + 1)]
      constructor
      · rintro ⟨u, h1, h2, h3⟩
        exact ⟨u, by omega, by omega, h3⟩
      · rintro ⟨u, h1, h2, h3⟩
        have hne : t ≠ u := by
          intro heq; subst heq; exact hp h3
        exact ⟨u, by omega, by omega, h3⟩

/-- The condition under which the sequential readiness block actually
succeeds: each wait's own predicate group holds at some poll inside that
wait's own budget, the window of each wait starting at the success tick of
the previous one (with the first two success ticks being the earliest
polls at which their group holds). -/
def seqReadyCondition (env : Nat → EnvState) : Prop :=
  ∃ t1, t1 < pollBudget ∧ canvasPred (env t1) = true ∧
    (∀ v, v < t1 → canvasPred (env v) = false) ∧
    ∃ t2, t1 ≤ t2 ∧ t2 < t1 + pollBudget ∧ uiRuntimePred (env t2) = true ∧
      (∀ v, t1 ≤ v → v < t2 → uiRuntimePred (env v) = false) ∧
      ∃ t3, t2 ≤ t3 ∧ t3 < t2 + pollBudget ∧ hostPred (env t3) = true

/-- Environment for the C3 counterexample: at tick 0 the graph and canvas
of the first wait's group are present but the window-level runtime is not;
from tick 1 on the window-level runtime is fully up but the graph and
canvas observables have been torn down. -/
def envStateA : EnvState :=
  ⟨true, true, false, false, false, false⟩

def envStateB : EnvState :=
  ⟨false, false, false, true, true, true⟩

def envCE : Nat → EnvState := fun t => if t = 0 then envStateA else envStateB

set_option maxRecDepth 8000 in
/-- C3 counterexample: the sequential readiness block succeeds on `envCE`
although the claim's three predicates (graph presence, surface presence,
full-initialization flag) never hold simultaneously at any poll within
the timeout bound — the code checks the groups sequentially, each against
its own fresh budget, so simultaneity is not required. -/
theorem C3_counterexample :
    setupReadinessWait envCE = Except.ok 1 ∧
    (∀ t, t < pollBudget → specReadySimultaneous (envCE t) = false) := by
  constructor
  · rfl
  · decide

theorem setupReadinessWait_ok_iff (env : Nat → EnvState) :
    (∃ t, setupReadinessWait env = Except.ok t) ↔ seqReadyCondition env := by
  constructor
  · rintro ⟨t, h⟩
    unfold setupReadinessWait at h
    cases h1 : waitForCanvasReady env 0 with
    | none => simp only [h1] at h; exact Except.noConfusion h
    | some t1 =>
      simp only [h1] at h
      cases h2 : waitForUiRuntimeReady env t1 with
      | none => simp only [h2] at h; exact Except.noConfusion h
      | some t2 =>
        simp only [h2] at h
        cases h3 : waitForHostReady env t2 with
        | none => simp only [h3] at h; exact Except.noConfusion h
        | some t3 =>
          obtain ⟨-, hb1, hp1, hm1⟩ :=
            (runWait_eq_some_iff canvasPred env pollBudget 0 t1).mp h1
          obtain ⟨ha2, hb2, hp2, hm2⟩ :=
            (runWait_eq_some_iff uiRuntimePred env pollBudget t1 t2).mp h2
          obtain ⟨ha3, hb3, hp3, -⟩ :=
            (runWait_eq_some_iff hostPred env pollBudget t2 t3).mp h3
          exact ⟨t1, by omega, hp1, fun v hv => hm1 v (by omega) hv,
            t2, ha2, hb2, hp2, hm2,
            t3, ha3, hb3, hp3⟩
  · rintro ⟨t1, hb1, hp1, hm1, t2, ha2, hb2, hp2, hm2, t3, ha3, hb3, hp3⟩
    have h1 : waitForCanvasReady env 0 = some t1 :=
      (runWait_eq_some_iff canvasPred env pollBudget 0 t1).mpr
        ⟨by omega, by omega, hp1, fun v _ hv => hm1 v hv⟩
    have h2 : waitForUiRuntimeReady env t1 = some t2 :=
      (runWait_eq_some_iff uiRuntimePred env pollBudget t1 t2).mpr
        ⟨ha2, hb2, hp2, hm2⟩
    have hs3 : (waitForHostReady env t2).isSome = true :=
      (runWait_isSome_iff hostPred env pollBudget t2).mpr ⟨t3, ha3, hb3, hp3⟩
    obtain ⟨t3', h3⟩ := Option.isSome_iff_exists.mp hs3
    refine ⟨t3', ?_⟩
    unfold setupReadinessWait
    simp only [h1, h2, h3]

theorem setupReadinessWait_error_msgs (env : Nat → EnvState) (e : String)
    (h : setupReadinessWait env = Except.error e) :
    e = canvasTimeoutMsg ∨ e = uiRuntimeTimeoutMsg ∨ e = hostTimeoutMsg := by
  unfold setupReadinessWait at h
  cases h1 : waitForCanvasReady env 0 with
  | none =>
    simp only [h1] at h
    exact Or.inl (by simpa using h.symm)
  | some t1 =>
    simp only [h1] at h
    cases h2 : waitForUiRuntimeReady env t1 with
    | none =>
      simp only [h2] at h
      exact Or.inr (Or.inl (by simpa using h.symm))
    | some t2 =>
      simp only [h2] at h
      cases h3 : waitForHostReady env t2 with
      | none =>
        simp only [h3] at h
        exact Or.inr (Or.inr (by simpa using h.symm))
      | some t3 => simp only [h3] at h; exact Except.noConfusion h

/-- C3 amended: the readiness block is three sequential waits, each with
its own fresh timeout budget and its own predicate group; it succeeds
exactly when the first group holds at some poll within the first budget,
the second group at some poll within a fresh budget starting at the first
success, and the third group within a fresh budget starting at the second
success — simultaneity of the claim's three predicates is neither required
nor sufficient. On failure the result is one of the three stage timeout
errors. -/
theorem C3_amended_sequential_readiness (env : Nat → EnvState) :
    ((∃ t, setupReadinessWait env = Except.ok t) ↔ seqReadyCondition env) ∧
    (∀ e, setupReadinessWait env = Except.error e →
      e = canvasTimeoutMsg ∨ e = uiRuntimeTimeoutMsg ∨ e = hostTimeoutMsg) :=
  ⟨setupReadinessWait_ok_iff env, fun e he => setupReadinessWait_error_msgs env e he⟩

/-- Outcome of one `app.handleFile` ingestion attempt: resolves, or
rejects with an error message. -/
inductive AttemptOutcome where
  | ok
  | err (message : String)
deriving DecidableEq, Repr

/-- The one recognized transient race signature. -/
def raceSignature : String := "getCanvas: canvas is null"

/-- `haystack.includes(needle)` on JavaScript strings. -/
def strIncludes (haystack needle : String) : Bool :=
  (List.range (haystack.data.length + 1)).any
    (fun i => needle.data.isPrefixOf (haystack.data.drop i))

/-- `message.includes('getCanvas: canvas is null')` — the transient-race
classifier of the retry loop. -/
def isCanvasStoreRace (message : String) : Bool :=
  strIncludes message raceSignature

/-- What the `for` retry loop of `importWorkflow` produced: how many
ingestion attempts ran, how many 100ms inter-attempt delays were slept,
and the thrown error message if the loop threw (`none` means it broke out
after a successful attempt). -/
structure RetryResult where
  attempts : Nat
  delays : Nat
  thrown : Option String
deriving DecidableEq, Repr

/-- `maxAttempts` from the source. -/
def maxAttempts : Nat := 30

/-- The retry loop of `importWorkflow`, driven by the per-attempt outcome
oracle `cap`: attempt `attempt`; on success break; on failure rethrow
unless the message carries the race signature and this is not the last
attempt, in which case sleep 100ms and retry. `fuel` counts the loop
iterations still permitted by the loop bound. -/
def importAttemptLoop (cap : Nat → AttemptOutcome) : Nat → Nat → Nat → RetryResult
  | attempt, delays, 0 => ⟨attempt - 1, delays, none⟩
  | attempt, delays, fuel + 1 =>
    match cap attempt with
    | .ok => ⟨attempt, delays, none⟩
    | .err m =>
      if !isCanvasStoreRace m || attempt == maxAttempts then ⟨attempt, delays, some m⟩
      else importAttemptLoop cap (attempt + 1) (delays + 1) fuel

/-- The capability surface consumed by the export paths:
`app.graphToPrompt` (absent, throwing, or resolving to a prompt result)
and `app.graph?.serialize?.()` (absent, throwing, or returning a value). -/
structure ExportEnv where
  graphToPrompt : Option (Except String JSValue)
  graphSerialize : Option (Except String JSValue)

/-- `safeGraphSnapshot` from the source: the structural serialization with
every failure or absence swallowed into `null`. -/
def safeGraphSnapshot (env : ExportEnv) : JSValue :=
  match env.graphSerialize with
  | none => .null
  | some (.error _) => .null
  | some (.ok v) => if isNullish v then .null else v

/-- `exportPromptSnapshot` from the source: the richer document-from-graph
path, returning `promptResult?.output ?? null`, with absence of the
capability and any thrown failure swallowed into `null`. -/
def exportPromptSnapshot (env : ExportEnv) : JSValue :=
  match env.graphToPrompt with
  | none => .null
  | some (.error _) => .null
  | some (.ok promptResult) =>
    let o := if isNullish promptResult then JSValue.undefined
             else getProp promptResult "output"
    if isNullish o then .null else o

/-- The export expression used by the `export-workflow` handler and the
re-read applied result: `(await exportPromptSnapshot()) ?? safeGraphSnapshot()`. -/
def combinedExport (env : ExportEnv) : JSValue :=
  let p := exportPromptSnapshot env
  if isNullish p then safeGraphSnapshot env else p

/-- Everything `importWorkflow` consumes from its surroundings: the
readiness observables (ticked from the call instant), whether
`app.handleFile` is a function, the per-attempt ingestion outcome for a
given serialized document, and the export capability surface used for the
re-read result. -/
structure ImportEnv where
  envTrace : Nat → EnvState
  handleFileAvailable : Bool
  cap : JSValue → Nat → AttemptOutcome
  exp : ExportEnv

/-- Observable outcome of one `importWorkflow` call: the returned snapshot
or thrown error message, the number of ingestion attempts performed, and
the number of inter-attempt delays slept. -/
structure ImportOutcome where
  result : Except String JSValue
  attempts : Nat
  delays : Nat

def missingPayloadMsg : String := "Missing workflow payload"

def handleFileUnavailableMsg : String := "Comfy app.handleFile is unavailable"

/-- `importWorkflow` from the source: reject falsy payloads, run the three
readiness waits, require `app.handleFile`, normalize, then run the retry
loop; on success re-read the applied state through the export paths. (The
one-shot console debug block is omitted: it only logs.) -/
def importWorkflow (ienv : ImportEnv) (workflow : JSValue) : ImportOutcome :=
  if !truthy workflow then ⟨.error missingPayloadMsg, 0, 0⟩
  else
    match setupReadinessWait ienv.envTrace with
    | .error e => ⟨.error e, 0, 0⟩
    | .ok _ =>
      if !ienv.handleFileAvailable then ⟨.error handleFileUnavailableMsg, 0, 0⟩
      else
        let normalized := normalizePipeline workflow
        let r := importAttemptLoop (ienv.cap normalized) 1 0 maxAttempts
        match r.thrown with
        | some m => ⟨.error m, r.attempts, r.delays⟩
        | none => ⟨.ok (combinedExport ienv.exp), r.attempts, r.delays⟩

theorem importAttemptLoop_ok (cap : Nat → AttemptOutcome) (a d f : Nat)
    (hc : cap a = .ok) :
    importAttemptLoop cap a d (f + 1) = ⟨a, d, none⟩ := by
  simp [importAttemptLoop, hc]

theorem importAttemptLoop_fatal (cap : Nat → AttemptOutcome) (a d f : Nat) (m : String)
    (hc : cap a = .err m) (hrace : isCanvasStoreRace m = false) :
    importAttemptLoop cap a d (f + 1) = ⟨a, d, some m⟩ := by
  simp [importAttemptLoop, hc, hrace]

theorem importAttemptLoop_race_step (cap : Nat → AttemptOutcome) (a d f : Nat)
    (m : String) (hc : cap a = .err m) (hr : isCanvasStoreRace m = true)
    (hne : a ≠ maxAttempts) :
    importAttemptLoop cap a d (f + 1) = importAttemptLoop cap (a + 1) (d + 1) f := by
  have hne' : (a == maxAttempts) = false := by simp [hne]
  simp [importAttemptLoop, hc, hr, hne']

theorem importAttemptLoop_last_throw (cap : Nat → AttemptOutcome) (d f : Nat)
    (m : String) (hc : cap maxAttempts = .err m) :
    importAttemptLoop cap maxAttempts d (f + 1) = ⟨maxAttempts, d, some m⟩ := by
  simp [importAttemptLoop, hc]

theorem importAttemptLoop_race_then_ok (cap : Nat → AttemptOutcome) (msgs : Nat → String) :
    ∀ j a d, (∀ i, a ≤ i → i < a + j →
        cap i = .err (msgs i) ∧ isCanvasStoreRace (msgs i) = true) →
      cap (a + j) = .ok → a + j ≤ maxAttempts → 1 ≤ a →
      importAttemptLoop cap a d (maxAttempts - a + 1) = ⟨a + j, d + j, none⟩ := by
  intro j
  induction j with
  | zero =>
    intro a d _ hok hle ha
    rw [importAttemptLoop_ok cap a d (maxAttempts - a) (by simpa using hok)]
    simp
  | succ j ih =>
    intro a d hfail hok hle ha
    obtain ⟨hce, hcr⟩ := hfail a (le_refl a) (by omega)
    have hstep : maxAttempts - a + 1 = (maxAttempts - (a + 1) + 1) + 1 := by omega
    rw [hstep, importAttemptLoop_race_step cap a d _ _ hce hcr (by omega)]
    have hok' : cap (a + 1 + j) = AttemptOutcome.ok := by
      rw [show a + 1 + j = a + (j + 1) by omega]; exact hok
    rw [ih (a + 1) (d + 1)
      (fun i h1 h2 => hfail i (by omega) (by omega)) hok' (by omega) (by omega)]
    have e1 : a + 1 + j = a + (j + 1) := by omega
    have e2 : d + 1 + j = d + (j + 1) := by omega
    rw [e1, e2]

theorem importAttemptLoop_race_exhaust (cap : Nat → AttemptOutcome) (msgs : Nat → String) :
    ∀ n a d, a + n = maxAttempts → 1 ≤ a →
      (∀ i, a ≤ i → i ≤ maxAttempts →
        cap i = .err (msgs i) ∧ isCanvasStoreRace (msgs i) = true) →
      importAttemptLoop cap a d (n + 1) =
        ⟨maxAttempts, d + n, some (msgs maxAttempts)⟩ := by
  intro n
  induction n with
  | zero =>
    intro a d hsum ha hfail
    have haeq : a = maxAttempts := by omega
    subst haeq
    obtain ⟨hce, -⟩ := hfail maxAttempts (le_refl maxAttempts) (le_refl maxAttempts)
    rw [importAttemptLoop_last_throw cap d 0 _ hce]
    simp
  | succ n ih =>
    intro a d hsum ha hfail
    obtain ⟨hce, hcr⟩ := hfail a (le_refl a) (by omega)
    rw [importAttemptLoop_race_step cap a d _ _ hce hcr (by omega),
      ih (a + 1) (d + 1) (by omega) (by omega)
        (fun i h1 h2 => hfail i (by omega) h2)]
    have e2 : d + 1 + n = d + (n + 1) := by omega
    rw [e2]

/-- C4: if the ingestion capability fails with the recognized race
signature exactly `k` times and then succeeds, `importWorkflow` succeeds
using exactly `k + 1` ingestion attempts (with `k` inter-attempt delays)
provided `k + 1` fits the attempt budget; if `k` is at least the budget,
it fails after exactly `maxAttempts` attempts and the propagated error is
the message observed on the last attempt. -/
theorem C4_import_retry_budget (ienv : ImportEnv) (w : JSValue) (k : Nat)
    (msgs : Nat → String) (t : Nat)
    (hw : truthy w = true)
    (hr : setupReadinessWait ienv.envTrace = Except.ok t)
    (hh : ienv.handleFileAvailable = true)
    (hfail : ∀ i, 1 ≤ i → i ≤ k →
      ienv.cap (normalizePipeline w) i = AttemptOutcome.err (msgs i) ∧
      isCanvasStoreRace (msgs i) = true)
    (hok : ienv.cap (normalizePipeline w) (k + 1) = AttemptOutcome.ok) :
    (k + 1 ≤ maxAttempts →
      importWorkflow ienv w = ⟨Except.ok (combinedExport ienv.exp), k + 1, k⟩) ∧
    (maxAttempts ≤ k →
      importWorkflow ienv w =
        ⟨Except.error (msgs maxAttempts), maxAttempts, maxAttempts - 1⟩) := by
  constructor
  · intro hle
    have hloop := importAttemptLoop_race_then_ok (ienv.cap (normalizePipeline w)) msgs k 1 0
      (fun i h1 h2 => hfail i h1 (by omega))
      (by rw [show 1 + k = k + 1 by omega]; exact hok) (by omega) (le_refl 1)
    have hfuel : maxAttempts = maxAttempts - 1 + 1 := by omega
    have hloop' : importAttemptLoop (ienv.cap (normalizePipeline w)) 1 0 maxAttempts
        = ⟨1 + k, 0 + k, none⟩ := by
      rw [hfuel]; exact hloop
    simp [importWorkflow, hw, hr, hh, hloop', Nat.add_comm]
  · intro hge
    have hloop := importAttemptLoop_race_exhaust (ienv.cap (normalizePipeline w)) msgs
      (maxAttempts - 1) 1 0 (by decide) (le_refl 1)
      (fun i h1 h2 => hfail i h1 (by
        have hm : maxAttempts ≤ k := hge
        omega))
    have hfuel : maxAttempts = maxAttempts - 1 + 1 := by decide
    have hloop' : importAttemptLoop (ienv.cap (normalizePipeline w)) 1 0 maxAttempts
        = ⟨maxAttempts, 0 + (maxAttempts - 1), some (msgs maxAttempts)⟩ := by
      rw [hfuel]; exact hloop
    simp [importWorkflow, hw, hr, hh, hloop']

/-- The all-true readiness observation used by concrete witnesses. -/
def readyEnvState : EnvState := ⟨true, true, true, true, true, true⟩

def witExportEnv : ExportEnv := ⟨none, none⟩

/-- A capability that hits the recognized race twice, then succeeds. -/
def witCap4 : JSValue → Nat → AttemptOutcome :=
  fun _ i => if i ≤ 2 then .err raceSignature else .ok

def witIenv4 : ImportEnv := ⟨fun _ => readyEnvState, true, witCap4, witExportEnv⟩

theorem C4_import_retry_budget_witness :
    importWorkflow witIenv4 (JSValue.obj []) =
      ⟨Except.ok (combinedExport witExportEnv), 3, 2⟩ := by
  have h := (C4_import_retry_budget witIenv4 (JSValue.obj []) 2
    (fun _ => raceSignature) 0 rfl (by rfl) rfl
    (fun i h1 h2 => ⟨by simp [witIenv4, witCap4, if_pos h2],
      by show isCanvasStoreRace raceSignature = true; decide⟩)
    (by decide)).1 (by decide)
  simpa using h

/-- C5: a first-attempt failure whose message does not carry the race
signature causes exactly one ingestion attempt, no delay, and immediate
propagation of that very error. -/
theorem C5_fatal_error_no_retry (ienv : ImportEnv) (w : JSValue) (m : String) (t : Nat)
    (hw : truthy w = true)
    (hr : setupReadinessWait ienv.envTrace = Except.ok t)
    (hh : ienv.handleFileAvailable = true)
    (hc : ienv.cap (normalizePipeline w) 1 = AttemptOutcome.err m)
    (hrace : isCanvasStoreRace m = false) :
    importWorkflow ienv w = ⟨Except.error m, 1, 0⟩ := by
  have hloop : importAttemptLoop (ienv.cap (normalizePipeline w)) 1 0 maxAttempts
      = ⟨1, 0, some m⟩ := by
    rw [show maxAttempts = 29 + 1 from rfl]
    exact importAttemptLoop_fatal _ 1 0 29 m hc hrace
  simp [importWorkflow, hw, hr, hh, hloop]

def witCap5 : JSValue → Nat → AttemptOutcome := fun _ _ => .err "invalid workflow JSON"

def witIenv5 : ImportEnv := ⟨fun _ => readyEnvState, true, witCap5, witExportEnv⟩

theorem C5_fatal_error_no_retry_witness :
    importWorkflow witIenv5 (JSValue.obj []) =
      ⟨Except.error "invalid workflow JSON", 1, 0⟩ :=
  C5_fatal_error_no_retry witIenv5 (JSValue.obj []) "invalid workflow JSON" 0
    rfl (by rfl) rfl rfl (by decide)

/-- C9: the export expression `exportPromptSnapshot() ?? safeGraphSnapshot()`
returns the richer path's output whenever `graphToPrompt` exists and
resolves to a result with a non-nullish `output`; it falls back to the
structural serialization when the richer path is absent or throws; and it
returns `null` — it is a total function and never throws — when both paths
are absent or fail. -/
theorem C9_export_snapshot_fallback (env : ExportEnv) :
    (∀ r, env.graphToPrompt = some (Except.ok r) → isNullish r = false →
      isNullish (getProp r "output") = false →
      combinedExport env = getProp r "output") ∧
    ((env.graphToPrompt = none ∨ ∃ e, env.graphToPrompt = some (Except.error e)) →
      combinedExport env = safeGraphSnapshot env) ∧
    ((env.graphToPrompt = none ∨ ∃ e, env.graphToPrompt = some (Except.error e)) →
      (env.graphSerialize = none ∨ ∃ e, env.graphSerialize = some (Except.error e)) →
      combinedExport env = JSValue.null) := by
  refine ⟨?_, ?_, ?_⟩
  · intro r h hnn hno
    simp [combinedExport, exportPromptSnapshot, h, hnn, hno]
  · rintro (h | ⟨e, h⟩) <;>
      simp [combinedExport, exportPromptSnapshot, h, isNullish]
  · rintro (h | ⟨e, h⟩) (h2 | ⟨e2, h2⟩) <;>
      simp [combinedExport, exportPromptSnapshot, safeGraphSnapshot, h, h2, isNullish]

def envRich : ExportEnv :=
  ⟨some (Except.ok (JSValue.obj [("output", JSValue.obj [("9", JSValue.num 7)])])),
   some (Except.ok (JSValue.obj []))⟩

def envThrows : ExportEnv :=
  ⟨some (Except.error "graphToPrompt exploded"),
   some (Except.ok (JSValue.obj [("nodes", JSValue.arr [])]))⟩

def envBothFail : ExportEnv := ⟨none, some (Except.error "serialize exploded")⟩

theorem C9_export_snapshot_fallback_witness :
    combinedExport envRich = JSValue.obj [("9", JSValue.num 7)] ∧
    combinedExport envThrows = safeGraphSnapshot envThrows ∧
    combinedExport envBothFail = JSValue.null :=
  ⟨(C9_export_snapshot_fallback envRich).1
      (JSValue.obj [("output", JSValue.obj [("9", JSValue.num 7)])]) rfl rfl (by rfl),
   (C9_export_snapshot_fallback envThrows).2.1 (Or.inr ⟨"graphToPrompt exploded", rfl⟩),
   (C9_export_snapshot_fallback envBothFail).2.2 (Or.inl rfl)
     (Or.inr ⟨"serialize exploded", rfl⟩)⟩

/-- C10: every falsy workflow value — `null`, `undefined`, `false`, `0`,
`NaN` and the empty string, and nothing else — is rejected with the
MissingPayload error before any readiness wait or ingestion attempt: the
outcome is the same for every environment, with zero ingestion attempts
and zero delays. -/
theorem C10_falsy_payload_rejected (ienv : ImportEnv) (w : JSValue) :
    (truthy w = false →
      importWorkflow ienv w = ⟨Except.error missingPayloadMsg, 0, 0⟩) ∧
    (truthy w = false ↔
      (w = JSValue.null ∨ w = JSValue.undefined ∨ w = JSValue.bool false ∨
       w = JSValue.num 0 ∨ w = JSValue.nan ∨ w = JSValue.str "")) := by
  constructor
  · intro h
    simp [importWorkflow, h]
  · cases w <;> simp [truthy]

def witIenv10 : ImportEnv :=
  ⟨fun _ => readyEnvState, true, fun _ _ => AttemptOutcome.ok, witExportEnv⟩

theorem C10_falsy_payload_rejected_witness :
    importWorkflow witIenv10 JSValue.nan = ⟨Except.error missingPayloadMsg, 0, 0⟩ :=
  (C10_falsy_payload_rejected witIenv10 JSValue.nan).1 rfl

/-- Inbound command types the router distinguishes. -/
inductive MsgType where
  | ping
  | exportW
  | importW
  | unknown (tag : String)
deriving DecidableEq, Repr

/-- An inbound `message` event: whether `data.source === 'graviton-host'`,
the command type, and a ghost message id used only to relate commands to
their completion events (real events carry payloads, not ids). -/
structure HostMsg where
  fromHost : Bool
  mtype : MsgType
  mid : Nat
deriving DecidableEq, Repr

/-- Outbound events posted to the parent, tagged with the ghost id of the
message they answer; `readyEv` and `setupErrorEv` answer no message. -/
inductive BEvent where
  | readyEv
  | pongEv (mid : Nat)
  | exportedEv (mid : Nat)
  | importedEv (mid : Nat)
  | importErrorEv (mid : Nat)
  | setupErrorEv
deriving DecidableEq, Repr

/-- Abstract behavior of one `importWorkflow` execution inside a handler:
how many genuine suspension points (awaits of `app.handleFile`, retry
delays, `graphToPrompt`) it passes before finishing, and whether it
finishes with `workflow-imported` (`true`) or an `import-workflow` error
event (`false`). -/
structure TaskSpec where
  suspensions : Nat
  succeeds : Bool
deriving DecidableEq, Repr

/-- An in-flight asynchronous handler execution. -/
inductive RunTask where
  | importTask (mid : Nat) (fuel : Nat) (ok : Bool)
  | exportTask (mid : Nat) (fuel : Nat)
deriving DecidableEq, Repr

def taskMid : RunTask → Nat
  | .importTask mid _ _ => mid
  | .exportTask mid _ => mid

/-- Phase of the setup task: awaiting the readiness waits; draining the
queue (with, possibly, the currently drained import in flight); finished;
or failed after a readiness timeout (the queue is then never drained). -/
inductive SetupPhase where
  | waiting
  | draining (current : Option (Nat × Nat × Bool))
  | done
  | failed
deriving DecidableEq, Repr

/-- Static data of one execution: the message events the host posts (in
arrival order), whether the readiness waits resolve or time out, and the
abstract behavior of each import / export handler execution by message
id. -/
structure BridgeConfig where
  inbox0 : List HostMsg
  setupSucceeds : Bool
  importSpec : Nat → TaskSpec
  exportFuel : Nat → Nat

/-- Dynamic state of the single-threaded event loop: `ready` is
`bridgeReady`, `queued` is `queuedMessages` (ids only; payloads are kept
verbatim alongside), `inbox` holds the message events not yet dispatched,
plus the setup task phase, the in-flight handler executions, the events
posted so far, and two ghost orderings (ids in enqueue order and in drain
order). -/
structure BridgeState where
  ready : Bool
  queued : List Nat
  inbox : List HostMsg
  phase : SetupPhase
  running : List RunTask
  out : List BEvent
  enqueueOrder : List Nat
  drainOrder : List Nat
deriving DecidableEq, Repr

/-- The completion event an import execution posts. -/
def completionEvent (mid : Nat) (ok : Bool) : BEvent :=
  if ok then .importedEv mid else .importErrorEv mid

/-- Dispatch of the next pending `message` event. The handler runs
synchronously up to its first genuine suspension: non-host sources and
unrecognized types are ignored silently, `ping` posts `pong` at once,
`export-workflow` starts an export execution, and `import-workflow` is
pushed onto the queue while `bridgeReady` is false, else starts an import
execution. -/
def deliverMsg (cfg : BridgeConfig) (s : BridgeState) : BridgeState :=
  match s.inbox with
  | [] => s
  | m :: rest =>
    if m.fromHost = false then { s with inbox := rest }
    else
      match m.mtype with
      | .ping => { s with inbox := rest, out := s.out ++ [.pongEv m.mid] }
      | .exportW =>
        { s with inbox := rest,
                 running := s.running ++ [.exportTask m.mid (cfg.exportFuel m.mid)] }
      | .importW =>
        if s.ready then
          { s with inbox := rest,
                   running := s.running ++
                     [.importTask m.mid (cfg.importSpec m.mid).suspensions
                       (cfg.importSpec m.mid).succeeds] }
        else
          { s with inbox := rest, queued := s.queued ++ [m.mid],
                   enqueueOrder := s.enqueueOrder ++ [m.mid] }
      | .unknown _ => { s with inbox := rest }

/-- One step of the setup task. Resolving the readiness waits flips
`bridgeReady`, posts `ready` and enters the drain loop; a timeout posts
the single setup-stage error and stops for good. While draining, shift
the next queued command and start its import (the shift and the start are
synchronous), let the current drained import pass one suspension, or post
its completion event and loop. -/
def stepSetup (cfg : BridgeConfig) (s : BridgeState) : BridgeState :=
  match s.phase with
  | .waiting =>
    if cfg.setupSucceeds then
      { s with ready := true, phase := .draining none, out := s.out ++ [.readyEv] }
    else
      { s with phase := .failed, out := s.out ++ [.setupErrorEv] }
  | .draining none =>
    match s.queued with
    | [] => { s with phase := .done }
    | mid :: rest =>
      { s with queued := rest, drainOrder := s.drainOrder ++ [mid],
               phase := .draining (some (mid, (cfg.importSpec mid).suspensions,
                 (cfg.importSpec mid).succeeds)) }
  | .draining (some (mid, 0, ok)) =>
    { s with out := s.out ++ [completionEvent mid ok], phase := .draining none }
  | .draining (some (mid, f + 1, ok)) =>
    { s with phase := .draining (some (mid, f, ok)) }
  | .done => s
  | .failed => s

/-- One step of the `i`-th in-flight handler execution: pass one
suspension, or post the completion event and finish. Returns the new task
list and the events posted. -/
def stepRunning : List RunTask → Nat → List RunTask × List BEvent
  | [], _ => ([], [])
  | t :: rest, 0 =>
    match t with
    | .importTask mid 0 ok => (rest, [completionEvent mid ok])
    | .importTask mid (f + 1) ok => (.importTask mid f ok :: rest, [])
    | .exportTask mid 0 => (rest, [.exportedEv mid])
    | .exportTask mid (f + 1) => (.exportTask mid f :: rest, [])
  | t :: rest, i + 1 =>
    let (r, es) := stepRunning rest i
    (t :: r, es)

def stepTaskAt (s : BridgeState) (i : Nat) : BridgeState :=
  let p := stepRunning s.running i
  { s with running := p.1, out := s.out ++ p.2 }

/-- A scheduling directive of the event loop: dispatch the next pending
message event, step the setup task, or step the `i`-th in-flight handler
execution. An execution of the bridge is an arbitrary directive list. -/
inductive Directive where
  | deliver
  | stepSetup
  | stepTask (i : Nat)
deriving DecidableEq, Repr

def step (cfg : BridgeConfig) (s : BridgeState) : Directive → BridgeState
  | .deliver => deliverMsg cfg s
  | .stepSetup => stepSetup cfg s
  | .stepTask i => stepTaskAt s i

def initState (cfg : BridgeConfig) : BridgeState :=
  ⟨false, [], cfg.inbox0, .waiting, [], [], [], []⟩

def run (cfg : BridgeConfig) (ds : List Directive) : BridgeState :=
  ds.foldl (step cfg) (initState cfg)

/-- A quiescent end state: every message event dispatched, no in-flight
handler execution, and the setup task finished or failed. From such a
state every further step is a no-op, so no further event is ever
posted. -/
def isComplete (s : BridgeState) : Bool :=
  s.inbox.isEmpty && s.running.isEmpty &&
    (s.phase == SetupPhase.done || s.phase == SetupPhase.failed)

/-- The recognized command types of the router. -/
def recognizedType : MsgType → Bool
  | .ping => true
  | .exportW => true
  | .importW => true
  | .unknown _ => false

/-- Does this event answer the message with ghost id `mid`? -/
def answersFor (mid : Nat) : BEvent → Bool
  | .pongEv m => m == mid
  | .exportedEv m => m == mid
  | .importedEv m => m == mid
  | .importErrorEv m => m == mid
  | _ => false

def answerCount (out : List BEvent) (mid : Nat) : Nat :=
  (out.filter (answersFor mid)).length

/-- Number of host-sourced recognized commands with ghost id `mid`. -/
def countAnswerMsgs (l : List HostMsg) (mid : Nat) : Nat :=
  (l.filter (fun m => m.fromHost && recognizedType m.mtype && m.mid == mid)).length

def queuedCount (l : List Nat) (mid : Nat) : Nat :=
  (l.filter (fun q => q == mid)).length

def currentCount (p : SetupPhase) (mid : Nat) : Nat :=
  match p with
  | .draining (some (m, _, _)) => if m == mid then 1 else 0
  | _ => 0

def runningCount (l : List RunTask) (mid : Nat) : Nat :=
  (l.filter (fun t => taskMid t == mid)).length

/-- The conservation token of message `mid`: a host-recognized command is
either still undelivered, queued, being drained, in flight, or answered —
and the total never changes. -/
def token (s : BridgeState) (mid : Nat) : Nat :=
  countAnswerMsgs s.inbox mid + queuedCount s.queued mid +
    currentCount s.phase mid + runningCount s.running mid +
    answerCount s.out mid

theorem answerCount_append (out es : List BEvent) (mid : Nat) :
    answerCount (out ++ es) mid = answerCount out mid + answerCount es mid := by
  simp [answerCount, List.filter_append]

theorem answersFor_completionEvent (mid m : Nat) (ok : Bool) :
    answersFor mid (completionEvent m ok) = (m == mid) := by
  cases ok <;> simp [completionEvent, answersFor]

theorem answerCount_single (e : BEvent) (mid : Nat) :
    answerCount [e] mid = if answersFor mid e then 1 else 0 := by
  by_cases h : answersFor mid e <;> simp [answerCount, List.filter, h]

theorem runningCount_cons (t : RunTask) (l : List RunTask) (mid : Nat) :
    runningCount (t :: l) mid
      = (if taskMid t == mid then 1 else 0) + runningCount l mid := by
  by_cases h : (taskMid t == mid) = true <;>
    simp [runningCount, List.filter_cons, h, Nat.add_comm]

theorem runningCount_append_single (l : List RunTask) (t : RunTask) (mid : Nat) :
    runningCount (l ++ [t]) mid
      = runningCount l mid + (if taskMid t == mid then 1 else 0) := by
  by_cases h : (taskMid t == mid) = true <;>
    simp [runningCount, List.filter_append, List.filter, h]

theorem queuedCount_cons (q : Nat) (l : List Nat) (mid : Nat) :
    queuedCount (q :: l) mid = (if q == mid then 1 else 0) + queuedCount l mid := by
  by_cases h : (q == mid) = true <;>
    simp [queuedCount, List.filter_cons, h, Nat.add_comm]

theorem queuedCount_append_single (l : List Nat) (q : Nat) (mid : Nat) :
    queuedCount (l ++ [q]) mid
      = queuedCount l mid + (if q == mid then 1 else 0) := by
  by_cases h : (q == mid) = true <;>
    simp [queuedCount, List.filter_append, List.filter, h]

theorem countAnswerMsgs_cons (m : HostMsg) (l : List HostMsg) (mid : Nat) :
    countAnswerMsgs (m :: l) mid
      = (if m.fromHost && recognizedType m.mtype && m.mid == mid then 1 else 0)
        + countAnswerMsgs l mid := by
  by_cases h : (m.fromHost && recognizedType m.mtype && m.mid == mid) = true <;>
    simp [countAnswerMsgs, List.filter_cons, h, Nat.add_comm]

theorem stepRunning_token (l : List RunTask) :
    ∀ i mid, runningCount (stepRunning l i).1 mid
        + answerCount (stepRunning l i).2 mid = runningCount l mid := by
  induction l with
  | nil => intro i mid; simp [stepRunning, runningCount, answerCount]
  | cons t rest ih =>
    intro i mid
    cases i with
    | zero =>
      cases t with
      | importTask m f ok =>
        cases f with
        | zero =>
          simp only [stepRunning, runningCount_cons, answerCount_single,
            answersFor_completionEvent, taskMid]
          by_cases h : (m == mid) = true <;> simp [h, Nat.add_comm]
        | succ f =>
          simp [stepRunning, runningCount_cons, answerCount, taskMid]
      | exportTask m f =>
        cases f with
        | zero =>
          simp only [stepRunning, runningCount_cons, answerCount_single, taskMid]
          by_cases h : (m == mid) = true <;> simp [h, answersFor, Nat.add_comm]
        | succ f =>
          simp [stepRunning, runningCount_cons, answerCount, taskMid]
    | succ i =>
      have hih := ih i mid
      cases hsr : stepRunning rest i with
      | mk r es =>
        rw [hsr] at hih
        simp only [stepRunning, hsr, runningCount_cons]
        simp only [runningCount_cons] at hih ⊢
        omega

theorem token_deliver (cfg : BridgeConfig) (s : BridgeState) (mid : Nat) :
    token (deliverMsg cfg s) mid = token s mid := by
  cases hin : s.inbox with
  | nil => simp [deliverMsg, hin]
  | cons m rest =>
    by_cases hh : m.fromHost = false
    · simp [deliverMsg, hin, hh, token, countAnswerMsgs_cons]
    · have hh' : m.fromHost = true := by simpa using hh
      cases hmt : m.mtype with
      | ping =>
        simp [deliverMsg, hin, hh', hmt]
        simp only [token, hin, countAnswerMsgs_cons, answerCount_append,
          answerCount_single, hh', hmt, recognizedType, answersFor]
        by_cases hm : (m.mid == mid) = true <;> simp [hm] <;> omega
      | exportW =>
        simp [deliverMsg, hin, hh', hmt]
        simp only [token, hin, countAnswerMsgs_cons, runningCount_append_single,
          hh', hmt, recognizedType, taskMid]
        by_cases hm : (m.mid == mid) = true <;> simp [hm] <;> omega
      | importW =>
        by_cases hr : s.ready = true
        · simp [deliverMsg, hin, hh', hmt, hr]
          simp only [token, hin, countAnswerMsgs_cons, runningCount_append_single,
            hh', hmt, recognizedType, taskMid]
          by_cases hm : (m.mid == mid) = true <;> simp [hm] <;> omega
        · have hr' : s.ready = false := by simpa using hr
          simp [deliverMsg, hin, hh', hmt, hr']
          simp only [token, hin, countAnswerMsgs_cons, queuedCount_append_single,
            hh', hmt, recognizedType]
          by_cases hm : (m.mid == mid) = true <;> simp [hm] <;> omega
      | unknown tag =>
        simp [deliverMsg, hin, hh', hmt]
        simp [token, hin, countAnswerMsgs_cons, hh', hmt, recognizedType]

theorem token_stepSetup (cfg : BridgeConfig) (s : BridgeState) (mid : Nat) :
    token (stepSetup cfg s) mid = token s mid := by
  cases hp : s.phase with
  | waiting =>
    by_cases hs : cfg.setupSucceeds = true <;>
      simp [stepSetup, hp, hs, token, currentCount, answerCount_append,
        answerCount_single, answersFor]
  | draining c =>
    cases c with
    | none =>
      cases hq : s.queued with
      | nil => simp [stepSetup, hp, hq, token, currentCount]
      | cons q rest =>
        simp only [stepSetup, hp, hq]
        simp only [token, hp, hq, currentCount, queuedCount_cons]
        by_cases hm : (q == mid) = true <;> simp [hm] <;> omega
    | some c3 =>
      obtain ⟨m, f, ok⟩ := c3
      cases f with
      | zero =>
        simp only [stepSetup, hp]
        simp only [token, hp, currentCount, answerCount_append, answerCount_single,
          answersFor_completionEvent]
        by_cases hm : (m == mid) = true <;> simp [hm] <;> omega
      | succ f =>
        simp [stepSetup, hp, token, currentCount]
  | done => simp [stepSetup, hp]
  | failed => simp [stepSetup, hp]

theorem token_step (cfg : BridgeConfig) (s : BridgeState) (d : Directive) (mid : Nat) :
    token (step cfg s d) mid = token s mid := by
  cases d with
  | deliver => exact token_deliver cfg s mid
  | stepSetup => exact token_stepSetup cfg s mid
  | stepTask i =>
    have h := stepRunning_token s.running i mid
    cases hsr : stepRunning s.running i with
    | mk r es =>
      rw [hsr] at h
      simp only [step, stepTaskAt, hsr, token, answerCount_append]
      simp only [runningCount] at h ⊢
      omega

theorem token_run (cfg : BridgeConfig) (ds : List Directive) (mid : Nat) :
    token (run cfg ds) mid = countAnswerMsgs cfg.inbox0 mid := by
  have h : ∀ s, token (ds.foldl (step cfg) s) mid = token s mid := by
    induction ds with
    | nil => intro s; rfl
    | cons d ds ih => intro s; rw [List.foldl_cons, ih, token_step]
  rw [run, h (initState cfg)]
  simp [token, initState, queuedCount, currentCount, runningCount, answerCount]

theorem invariant_run {P : BridgeState → Prop} (cfg : BridgeConfig)
    (hstep : ∀ s d, P s → P (step cfg s d)) (hinit : P (initState cfg))
    (ds : List Directive) : P (run cfg ds) := by
  rw [run]
  suffices h : ∀ s, P s → P (ds.foldl (step cfg) s) from h _ hinit
  induction ds with
  | nil => intro s hs; exact hs
  | cons d ds ih => intro s hs; exact ih _ (hstep s d hs)

/-- Fields of the state a message dispatch never touches, and the two ways
it can touch the queue. -/
theorem deliverMsg_fields (cfg : BridgeConfig) (s : BridgeState) :
    (deliverMsg cfg s).phase = s.phase ∧
    (deliverMsg cfg s).ready = s.ready ∧
    (deliverMsg cfg s).drainOrder = s.drainOrder ∧
    ((deliverMsg cfg s).queued = s.queued ∧
        (deliverMsg cfg s).enqueueOrder = s.enqueueOrder ∨
      (s.ready = false ∧ ∃ q, (deliverMsg cfg s).queued = s.queued ++ [q] ∧
        (deliverMsg cfg s).enqueueOrder = s.enqueueOrder ++ [q])) := by
  cases hin : s.inbox with
  | nil => simp [deliverMsg, hin]
  | cons m rest =>
    by_cases hh : m.fromHost = false
    · simp [deliverMsg, hin, hh]
    · have hh' : m.fromHost = true := by simpa using hh
      cases hmt : m.mtype with
      | ping => simp [deliverMsg, hin, hh', hmt]
      | exportW => simp [deliverMsg, hin, hh', hmt]
      | importW =>
        by_cases hr : s.ready = true
        · simp [deliverMsg, hin, hh', hmt, hr]
        · have hr' : s.ready = false := by simpa using hr
          refine ⟨?_, ?_, ?_, Or.inr ⟨hr', m.mid, ?_, ?_⟩⟩ <;>
            simp [deliverMsg, hin, hh', hmt, hr']
      | unknown tag => simp [deliverMsg, hin, hh', hmt]

theorem stepTaskAt_fields (s : BridgeState) (i : Nat) :
    (stepTaskAt s i).phase = s.phase ∧ (stepTaskAt s i).ready = s.ready ∧
    (stepTaskAt s i).queued = s.queued ∧ (stepTaskAt s i).inbox = s.inbox ∧
    (stepTaskAt s i).enqueueOrder = s.enqueueOrder ∧
    (stepTaskAt s i).drainOrder = s.drainOrder := by
  simp [stepTaskAt]

/-- Structural invariant: draining or done implies `bridgeReady` is set;
once the drain finished the queue is empty; and the ghost orders satisfy
the FIFO equation. -/
def MachInv (s : BridgeState) : Prop :=
  ((∃ c, s.phase = SetupPhase.draining c) ∨ s.phase = SetupPhase.done → s.ready = true) ∧
  (s.phase = SetupPhase.done → s.queued = []) ∧
  s.enqueueOrder = s.drainOrder ++ s.queued

theorem machInv_step (cfg : BridgeConfig) (s : BridgeState) (d : Directive)
    (h : MachInv s) : MachInv (step cfg s d) := by
  obtain ⟨h1, h2, h3⟩ := h
  cases d with
  | deliver =>
    simp only [step]
    obtain ⟨hp, hr, hd, hq⟩ := deliverMsg_fields cfg s
    rcases hq with ⟨hq1, hq2⟩ | ⟨hrf, q, hq1, hq2⟩
    · exact ⟨fun ha => by rw [hr]; exact h1 (by rwa [hp] at ha),
        fun ha => by rw [hq1]; exact h2 (by rwa [hp] at ha),
        by rw [hq2, hd, hq1]; exact h3⟩
    · refine ⟨fun ha => by rw [hr]; exact h1 (by rwa [hp] at ha), ?_, ?_⟩
      · intro ha
        rw [hp] at ha
        exact absurd (h1 (Or.inr ha)) (by simp [hrf])
      · rw [hq2, hd, hq1, h3, List.append_assoc]
  | stepSetup =>
    cases hph : s.phase with
    | waiting =>
      by_cases hs : cfg.setupSucceeds = true
      · refine ⟨fun _ => ?_, fun ha => ?_, ?_⟩ <;>
          simp_all [step, stepSetup, hph, hs]
      · have hs' : cfg.setupSucceeds = false := by simpa using hs
        refine ⟨fun ha => ?_, fun ha => ?_, ?_⟩ <;>
          simp_all [step, stepSetup, hph, hs']
    | draining c =>
      cases c with
      | none =>
        cases hq : s.queued with
        | nil =>
          refine ⟨fun _ => ?_, fun _ => ?_, ?_⟩ <;>
            simp_all [step, stepSetup, hph, hq]
        | cons q rest =>
          refine ⟨fun _ => ?_, fun ha => ?_, ?_⟩ <;>
            simp_all [step, stepSetup, hph, hq]
      | some c3 =>
        obtain ⟨m, f, ok⟩ := c3
        cases f with
        | zero =>
          refine ⟨fun _ => ?_, fun ha => ?_, ?_⟩ <;>
            simp_all [step, stepSetup, hph]
        | succ f =>
          refine ⟨fun _ => ?_, fun ha => ?_, ?_⟩ <;>
            simp_all [step, stepSetup, hph]
    | done =>
      refine ⟨fun _ => ?_, fun ha => ?_, ?_⟩ <;>
        simp_all [step, stepSetup, hph]
    | failed =>
      refine ⟨fun ha => ?_, fun ha => ?_, ?_⟩ <;>
        simp_all [step, stepSetup, hph]
  | stepTask i =>
    simp only [step]
    obtain ⟨hp, hr, hq, hi, he, hd⟩ := stepTaskAt_fields s i
    exact ⟨fun ha => by rw [hr]; exact h1 (by rwa [hp] at ha),
      fun ha => by rw [hq]; exact h2 (by rwa [hp] at ha),
      by rw [he, hd, hq]; exact h3⟩

theorem machInv_run (cfg : BridgeConfig) (ds : List Directive) :
    MachInv (run cfg ds) := by
  refine invariant_run cfg (machInv_step cfg) ?_ ds
  refine ⟨?_, ?_, ?_⟩ <;> simp [initState, MachInv]

/-- The failed phase arises only from a readiness timeout. -/
theorem step_failed (cfg : BridgeConfig) (s : BridgeState) (d : Directive)
    (h : (step cfg s d).phase = SetupPhase.failed) :
    s.phase = SetupPhase.failed ∨
      (s.phase = SetupPhase.waiting ∧ cfg.setupSucceeds = false) := by
  cases d with
  | deliver =>
    simp only [step] at h
    obtain ⟨hp, -, -, -⟩ := deliverMsg_fields cfg s
    rw [hp] at h
    exact Or.inl h
  | stepSetup =>
    cases hph : s.phase with
    | waiting =>
      by_cases hs : cfg.setupSucceeds = true
      · simp [step, stepSetup, hph, hs] at h
      · exact Or.inr ⟨rfl, by simpa using hs⟩
    | draining c =>
      rcases c with - | ⟨m, f, ok⟩
      · cases hq : s.queued with
        | nil => simp [step, stepSetup, hph, hq] at h
        | cons q rest => simp [step, stepSetup, hph, hq] at h
      · cases f with
        | zero => simp [step, stepSetup, hph] at h
        | succ f => simp [step, stepSetup, hph] at h
    | done => simp [step, stepSetup, hph] at h
    | failed => exact Or.inl rfl
  | stepTask i =>
    simp only [step] at h
    obtain ⟨hp, -⟩ := stepTaskAt_fields s i
    rw [hp] at h
    exact Or.inl h

theorem noFail_run (cfg : BridgeConfig) (ds : List Directive)
    (hs : cfg.setupSucceeds = true) :
    (run cfg ds).phase ≠ SetupPhase.failed := by
  have hstep : ∀ s d, s.phase ≠ SetupPhase.failed →
      (step cfg s d).phase ≠ SetupPhase.failed := by
    intro s d hns hf
    rcases step_failed cfg s d hf with hf' | ⟨-, hsf⟩
    · exact hns hf'
    · rw [hs] at hsf; exact Bool.noConfusion hsf
  exact invariant_run cfg hstep (by simp [initState]) ds

/-- Every host-sourced recognized message with ghost id `mid` in the list
has a non-import type. -/
def OnlyNonImportMid (l : List HostMsg) (mid : Nat) : Prop :=
  ∀ m ∈ l, m.fromHost = true → recognizedType m.mtype = true → m.mid = mid →
    m.mtype ≠ MsgType.importW

/-- Every host-sourced recognized message with ghost id `mid` in the list
is an import command. -/
def OnlyImportMid (l : List HostMsg) (mid : Nat) : Prop :=
  ∀ m ∈ l, m.fromHost = true → recognizedType m.mtype = true → m.mid = mid →
    m.mtype = MsgType.importW

/-- When no host import command carries id `mid`, that id never sits in
the queue or in the drain slot. -/
def NonImpInv (mid : Nat) (s : BridgeState) : Prop :=
  OnlyNonImportMid s.inbox mid ∧ queuedCount s.queued mid = 0 ∧
    currentCount s.phase mid = 0

theorem nonImpInv_step (cfg : BridgeConfig) (s : BridgeState) (d : Directive)
    (mid : Nat) (h : NonImpInv mid s) : NonImpInv mid (step cfg s d) := by
  obtain ⟨h1, h2, h3⟩ := h
  cases d with
  | deliver =>
    cases hin : s.inbox with
    | nil => simpa [step, deliverMsg, hin] using ⟨h1, h2, h3⟩
    | cons m rest =>
      have h1' : OnlyNonImportMid rest mid := by
        intro x hx hxh hxr hxm
        exact h1 x (by rw [hin]; exact List.mem_cons_of_mem m hx) hxh hxr hxm
      by_cases hh : m.fromHost = false
      · refine ⟨?_, ?_, ?_⟩ <;> simp [step, deliverMsg, hin, hh, h1', h2, h3]
      · have hh' : m.fromHost = true := by simpa using hh
        cases hmt : m.mtype with
        | ping =>
          refine ⟨?_, ?_, ?_⟩ <;>
            simp [step, deliverMsg, hin, hh', hmt, h1', h2, h3]
        | exportW =>
          refine ⟨?_, ?_, ?_⟩ <;>
            simp [step, deliverMsg, hin, hh', hmt, h1', h2, h3]
        | importW =>
          have hmm : m.mid ≠ mid := by
            intro heq
            exact h1 m (by rw [hin]; exact List.mem_cons_self m rest) hh'
              (by rw [hmt]; rfl) heq hmt
          by_cases hr : s.ready = true
          · refine ⟨?_, ?_, ?_⟩ <;>
              simp [step, deliverMsg, hin, hh', hmt, hr, h1', h2, h3]
          · have hr' : s.ready = false := by simpa using hr
            have hqq : queuedCount (s.queued ++ [m.mid]) mid = 0 := by
              rw [queuedCount_append_single, h2]
              simp [hmm]
            refine ⟨?_, ?_, ?_⟩ <;>
              simp [step, deliverMsg, hin, hh', hmt, hr', h1', hqq, h3]
        | unknown tag =>
          refine ⟨?_, ?_, ?_⟩ <;>
            simp [step, deliverMsg, hin, hh', hmt, h1', h2, h3]
  | stepSetup =>
    cases hph : s.phase with
    | waiting =>
      by_cases hs : cfg.setupSucceeds = true
      · refine ⟨?_, ?_, ?_⟩ <;>
          simp [step, stepSetup, hph, hs, currentCount, h1, h2]
      · have hs' : cfg.setupSucceeds = false := by simpa using hs
        refine ⟨?_, ?_, ?_⟩ <;>
          simp [step, stepSetup, hph, hs', currentCount, h1, h2]
    | draining c =>
      cases c with
      | none =>
        cases hq : s.queued with
        | nil =>
          refine ⟨?_, ?_, ?_⟩ <;>
            simp [step, stepSetup, hph, hq, currentCount, queuedCount, h1]
        | cons q rest =>
          rw [hq, queuedCount_cons] at h2
          have hq0 : (q == mid) = false := by
            by_cases hqm : (q == mid) = true
            · rw [hqm] at h2; simp at h2
            · simpa using hqm
          have hrest : queuedCount rest mid = 0 := by omega
          refine ⟨?_, ?_, ?_⟩ <;>
            simp [step, stepSetup, hph, hq, currentCount, h1, hq0, hrest]
      | some c3 =>
        obtain ⟨m, f, ok⟩ := c3
        cases f with
        | zero =>
          refine ⟨?_, ?_, ?_⟩ <;>
            simp [step, stepSetup, hph, currentCount, h1, h2]
        | succ f =>
          rw [hph] at h3
          refine ⟨?_, ?_, ?_⟩ <;>
            simp_all [step, stepSetup, hph, currentCount, h1, h2]
    | done =>
      refine ⟨?_, ?_, ?_⟩ <;> simp [step, stepSetup, hph, currentCount, h1, h2]
    | failed =>
      refine ⟨?_, ?_, ?_⟩ <;> simp [step, stepSetup, hph, currentCount, h1, h2]
  | stepTask i =>
    obtain ⟨hp, hr, hq, hi, he, hd⟩ := stepTaskAt_fields s i
    refine ⟨?_, ?_, ?_⟩
    · simp only [step, hi]; exact h1
    · simp only [step, hq]; exact h2
    · simp only [step, hp]; exact h3

/-- When the readiness wait is doomed to time out and the only host
command carrying id `mid` is an import, that command is never started and
never answered: `bridgeReady` stays false, the setup task never drains,
no handler execution carries the id and no answer for it is ever
posted. -/
def FInv (mid : Nat) (s : BridgeState) : Prop :=
  OnlyImportMid s.inbox mid ∧ s.ready = false ∧
    (s.phase = SetupPhase.waiting ∨ s.phase = SetupPhase.failed) ∧
    runningCount s.running mid = 0 ∧ answerCount s.out mid = 0

theorem fInv_step (cfg : BridgeConfig) (s : BridgeState) (d : Directive)
    (mid : Nat) (hs : cfg.setupSucceeds = false) (h : FInv mid s) :
    FInv mid (step cfg s d) := by
  obtain ⟨h1, h2, h3, h4, h5⟩ := h
  cases d with
  | deliver =>
    cases hin : s.inbox with
    | nil => simpa [step, deliverMsg, hin] using ⟨h1, h2, h3, h4, h5⟩
    | cons m rest =>
      have h1' : OnlyImportMid rest mid := by
        intro x hx hxh hxr hxm
        exact h1 x (by rw [hin]; exact List.mem_cons_of_mem m hx) hxh hxr hxm
      by_cases hh : m.fromHost = false
      · refine ⟨?_, ?_, ?_, ?_, ?_⟩ <;>
          simp [step, deliverMsg, hin, hh, h1', h2, h3, h4, h5]
      · have hh' : m.fromHost = true := by simpa using hh
        cases hmt : m.mtype with
        | ping =>
          have hmm : m.mid ≠ mid := by
            intro heq
            have := h1 m (by rw [hin]; exact List.mem_cons_self m rest) hh'
              (by rw [hmt]; rfl) heq
            rw [hmt] at this
            exact MsgType.noConfusion this
          have hout : answerCount (s.out ++ [BEvent.pongEv m.mid]) mid = 0 := by
            rw [answerCount_append, answerCount_single, h5]
            simp [answersFor, hmm]
          refine ⟨?_, ?_, ?_, ?_, ?_⟩ <;>
            simp [step, deliverMsg, hin, hh', hmt, h1', h2, h3, h4, hout]
        | exportW =>
          have hmm : m.mid ≠ mid := by
            intro heq
            have := h1 m (by rw [hin]; exact List.mem_cons_self m rest) hh'
              (by rw [hmt]; rfl) heq
            rw [hmt] at this
            exact MsgType.noConfusion this
          have hrun : runningCount
              (s.running ++ [RunTask.exportTask m.mid (cfg.exportFuel m.mid)]) mid = 0 := by
            rw [runningCount_append_single, h4]
            simp [taskMid, hmm]
          refine ⟨?_, ?_, ?_, ?_, ?_⟩ <;>
            simp [step, deliverMsg, hin, hh', hmt, h1', h2, h3, hrun, h5]
        | importW =>
          refine ⟨?_, ?_, ?_, ?_, ?_⟩ <;>
            simp [step, deliverMsg, hin, hh', hmt, h2, h1', h3, h4, h5]
        | unknown tag =>
          refine ⟨?_, ?_, ?_, ?_, ?_⟩ <;>
            simp [step, deliverMsg, hin, hh', hmt, h1', h2, h3, h4, h5]
  | stepSetup =>
    rcases h3 with hph | hph
    · have hout : answerCount (s.out ++ [BEvent.setupErrorEv]) mid = 0 := by
        rw [answerCount_append, answerCount_single, h5]
        simp [answersFor]
      refine ⟨?_, ?_, ?_, ?_, ?_⟩ <;>
        simp [step, stepSetup, hph, hs, h1, h2, h4, hout]
    · refine ⟨?_, ?_, ?_, ?_, ?_⟩ <;>
        simp [step, stepSetup, hph, h1, h2, h4, h5]
  | stepTask i =>
    have htk := stepRunning_token s.running i mid
    rw [h4] at htk
    have hr0 : runningCount (stepRunning s.running i).1 mid = 0 := by omega
    have he0 : answerCount (stepRunning s.running i).2 mid = 0 := by omega
    obtain ⟨hp, hr, hq, hi, he, hd⟩ := stepTaskAt_fields s i
    refine ⟨?_, ?_, ?_, ?_, ?_⟩
    · simp only [step, hi]; exact h1
    · simp only [step, hr]; exact h2
    · simp only [step, hp]; exact h3
    · simp only [step, stepTaskAt]; exact hr0
    · simp only [step, stepTaskAt, answerCount_append, h5, he0]

theorem uniq_answer_msg (l : List HostMsg) (mid : Nat) (m : HostMsg)
    (hm : m ∈ l) (hmid : m.mid = mid) (hh : m.fromHost = true)
    (hrec : recognizedType m.mtype = true)
    (huniq : countAnswerMsgs l mid = 1) :
    ∀ x ∈ l, x.fromHost = true → recognizedType x.mtype = true → x.mid = mid →
      x = m := by
  intro x hx hxh hxr hxm
  have hmf : m ∈ l.filter (fun y => y.fromHost && recognizedType y.mtype && y.mid == mid) :=
    List.mem_filter.mpr ⟨hm, by simp [hh, hrec, hmid]⟩
  have hxf : x ∈ l.filter (fun y => y.fromHost && recognizedType y.mtype && y.mid == mid) :=
    List.mem_filter.mpr ⟨hx, by simp [hxh, hxr, hxm]⟩
  rw [countAnswerMsgs] at huniq
  cases hf : l.filter (fun y => y.fromHost && recognizedType y.mtype && y.mid == mid) with
  | nil => rw [hf] at hmf; exact absurd hmf (by simp)
  | cons a as =>
    rw [hf] at huniq hmf hxf
    have has : as = [] := by
      have : as.length = 0 := by simpa using huniq
      exact List.length_eq_zero.mp this
    subst has
    have h1 : m = a := by simpa using hmf
    have h2 : x = a := by simpa using hxf
    rw [h1, h2]

/-- A quiescent state absorbs every further step: once an execution is
complete, no directive changes the state, so no further event is ever
posted. -/
theorem complete_absorbing (cfg : BridgeConfig) (s : BridgeState)
    (h : isComplete s = true) (d : Directive) : step cfg s d = s := by
  have hc : (s.inbox = [] ∧ s.running = []) ∧
      (s.phase = SetupPhase.done ∨ s.phase = SetupPhase.failed) := by
    simpa [isComplete, List.isEmpty_iff, Bool.and_eq_true, Bool.or_eq_true,
      beq_iff_eq] using h
  obtain ⟨⟨hi, hr⟩, hph⟩ := hc
  cases d with
  | deliver => simp [step, deliverMsg, hi]
  | stepSetup => rcases hph with hph | hph <;> simp [step, stepSetup, hph]
  | stepTask i =>
    cases s with
    | mk rd qd ib ph rn ot eo dr =>
      simp only at hr
      subst hr
      simp [step, stepTaskAt, stepRunning]

/-- Once complete, extending the schedule changes nothing. -/
theorem run_append_complete (cfg : BridgeConfig) (ds more : List Directive)
    (h : isComplete (run cfg ds) = true) :
    run cfg (ds ++ more) = run cfg ds := by
  rw [run, List.foldl_append, ← run]
  induction more with
  | nil => rfl
  | cons d more ih =>
    rw [List.foldl_cons, complete_absorbing cfg (run cfg ds) h d]
    exact ih

/-- C1 amended: in every complete execution, a host command with a unique
ghost id receives exactly one answer when the readiness wait succeeds;
`ping` and `export-workflow` receive exactly one answer even when the
readiness wait times out; but an `import-workflow` command in a timed-out
execution receives zero completion events — it stays queued forever while
only the single setup-stage error is posted. -/
theorem C1_amended_completion_counts (cfg : BridgeConfig) (ds : List Directive)
    (mid : Nat) (m : HostMsg)
    (hm : m ∈ cfg.inbox0) (hmid : m.mid = mid) (hhost : m.fromHost = true)
    (hrec : recognizedType m.mtype = true)
    (huniq : countAnswerMsgs cfg.inbox0 mid = 1)
    (hcomp : isComplete (run cfg ds) = true) :
    (cfg.setupSucceeds = true → answerCount (run cfg ds).out mid = 1) ∧
    (m.mtype = MsgType.ping → answerCount (run cfg ds).out mid = 1) ∧
    (m.mtype = MsgType.exportW → answerCount (run cfg ds).out mid = 1) ∧
    (cfg.setupSucceeds = false → m.mtype = MsgType.importW →
      answerCount (run cfg ds).out mid = 0) := by
  have htok := token_run cfg ds mid
  rw [huniq, token] at htok
  have hc : ((run cfg ds).inbox = [] ∧ (run cfg ds).running = []) ∧
      ((run cfg ds).phase = SetupPhase.done ∨
        (run cfg ds).phase = SetupPhase.failed) := by
    simpa [isComplete, List.isEmpty_iff, Bool.and_eq_true, Bool.or_eq_true,
      beq_iff_eq] using hcomp
  obtain ⟨⟨hib, hrn⟩, hph⟩ := hc
  have hia : countAnswerMsgs (run cfg ds).inbox mid = 0 := by rw [hib]; rfl
  have hra : runningCount (run cfg ds).running mid = 0 := by rw [hrn]; rfl
  have hca : currentCount (run cfg ds).phase mid = 0 := by
    rcases hph with hph | hph <;> rw [hph] <;> rfl
  rw [hia, hra, hca] at htok
  refine ⟨?_, ?_, ?_, ?_⟩
  · intro hs
    have hnd := noFail_run cfg ds hs
    have hphd : (run cfg ds).phase = SetupPhase.done := by
      rcases hph with hph | hph
      · exact hph
      · exact absurd hph hnd
    obtain ⟨-, hq, -⟩ := machInv_run cfg ds
    have hq0 : queuedCount (run cfg ds).queued mid = 0 := by rw [hq hphd]; rfl
    omega
  · intro hping
    have honly : OnlyNonImportMid cfg.inbox0 mid := by
      intro x hx hxh hxr hxm himp
      have hxe := uniq_answer_msg cfg.inbox0 mid m hm hmid hhost hrec huniq
        x hx hxh hxr hxm
      rw [hxe, hping] at himp
      exact MsgType.noConfusion himp
    have hinv := invariant_run cfg (fun s d h => nonImpInv_step cfg s d mid h)
      ⟨honly, rfl, rfl⟩ ds
    obtain ⟨-, hq0, hc0⟩ := hinv
    omega
  · intro hexp
    have honly : OnlyNonImportMid cfg.inbox0 mid := by
      intro x hx hxh hxr hxm himp
      have hxe := uniq_answer_msg cfg.inbox0 mid m hm hmid hhost hrec huniq
        x hx hxh hxr hxm
      rw [hxe, hexp] at himp
      exact MsgType.noConfusion himp
    have hinv := invariant_run cfg (fun s d h => nonImpInv_step cfg s d mid h)
      ⟨honly, rfl, rfl⟩ ds
    obtain ⟨-, hq0, hc0⟩ := hinv
    omega
  · intro hsf himp
    have honly : OnlyImportMid cfg.inbox0 mid := by
      intro x hx hxh hxr hxm
      have hxe := uniq_answer_msg cfg.inbox0 mid m hm hmid hhost hrec huniq
        x hx hxh hxr hxm
      rw [hxe, himp]
    have hinv := invariant_run cfg (fun s d h => fInv_step cfg s d mid hsf h)
      ⟨honly, rfl, Or.inl rfl, rfl, rfl⟩ ds
    exact hinv.2.2.2.2

/-- Configuration of the C1 counterexample: the readiness wait times out
while two host import commands arrive. -/
def cfgC1 : BridgeConfig :=
  ⟨[⟨true, MsgType.importW, 0⟩, ⟨true, MsgType.importW, 1⟩], false,
    fun _ => ⟨0, true⟩, fun _ => 0⟩

def dsC1 : List Directive := [.deliver, .deliver, .stepSetup]

/-- C1 counterexample: a complete execution in which the readiness wait
times out while two recognized host import commands are queued — both
commands receive zero completion events (only the single setup-stage
error is posted), refuting "exactly one completion event per recognized
command, including executions in which the readiness wait times out while
commands are queued". -/
theorem C1_counterexample :
    isComplete (run cfgC1 dsC1) = true ∧
    countAnswerMsgs cfgC1.inbox0 0 = 1 ∧
    countAnswerMsgs cfgC1.inbox0 1 = 1 ∧
    answerCount (run cfgC1 dsC1).out 0 = 0 ∧
    answerCount (run cfgC1 dsC1).out 1 = 0 :=
  ⟨rfl, rfl, rfl, rfl, rfl⟩

def cfgW1 : BridgeConfig :=
  ⟨[⟨true, MsgType.ping, 5⟩], true, fun _ => ⟨0, true⟩, fun _ => 0⟩

def dsW1 : List Directive := [.deliver, .stepSetup, .stepSetup]

theorem C1_amended_completion_counts_witness :
    answerCount (run cfgW1 dsW1).out 5 = 1 :=
  (C1_amended_completion_counts cfgW1 dsW1 5 ⟨true, MsgType.ping, 5⟩
    (by simp [cfgW1]) rfl rfl rfl rfl rfl).1 rfl

/-- C2 amended: queued commands are drained strictly in arrival order
(the dispatch order of the drain equals the enqueue order) in every
complete execution whose readiness wait succeeds — but the drain is not
synchronous: each drained import awaits asynchronous ingestion, so a
post-Ready command already waiting in the event loop can be processed,
and even complete, before the drain finishes (see the counterexample). -/
theorem C2_amended_fifo_drain (cfg : BridgeConfig) (ds : List Directive)
    (hs : cfg.setupSucceeds = true)
    (hcomp : isComplete (run cfg ds) = true) :
    (run cfg ds).enqueueOrder = (run cfg ds).drainOrder := by
  obtain ⟨-, hq, h3⟩ := machInv_run cfg ds
  have hnd := noFail_run cfg ds hs
  have hph : (run cfg ds).phase = SetupPhase.done ∨
      (run cfg ds).phase = SetupPhase.failed := by
    have hc : ((run cfg ds).inbox = [] ∧ (run cfg ds).running = []) ∧
        ((run cfg ds).phase = SetupPhase.done ∨
          (run cfg ds).phase = SetupPhase.failed) := by
      simpa [isComplete, List.isEmpty_iff, Bool.and_eq_true, Bool.or_eq_true,
        beq_iff_eq] using hcomp
    exact hc.2
  have hphd : (run cfg ds).phase = SetupPhase.done := by
    rcases hph with hph | hph
    · exact hph
    · exact absurd hph hnd
  rw [h3, hq hphd, List.append_nil]

/-- Configuration of the C2 counterexample: import command 0 arrives
before Ready and its ingestion suspends twice; import command 1 is
already waiting in the event loop and completes instantly. -/
def cfgC2 : BridgeConfig :=
  ⟨[⟨true, MsgType.importW, 0⟩, ⟨true, MsgType.importW, 1⟩], true,
    fun mid => if mid = 0 then ⟨2, true⟩ else ⟨0, true⟩, fun _ => 0⟩

def dsC2 : List Directive :=
  [.deliver, .stepSetup, .stepSetup, .deliver, .stepTask 0,
   .stepSetup, .stepSetup, .stepSetup, .stepSetup]

/-- C2 counterexample: command 0 was queued before Ready (enqueue order
`[0]`) and is drained first, but while its ingestion is suspended the
post-Ready command 1 is dispatched and completes first: the output order
is `ready`, `workflow-imported` for 1, then `workflow-imported` for 0 —
refuting "the drain completes before any newly-arriving post-Ready
command waiting in the event loop is processed (drain happens
synchronously within the transition handler before yielding)". -/
theorem C2_counterexample :
    isComplete (run cfgC2 dsC2) = true ∧
    (run cfgC2 dsC2).enqueueOrder = [0] ∧
    (run cfgC2 dsC2).drainOrder = [0] ∧
    (run cfgC2 dsC2).out =
      [BEvent.readyEv, BEvent.importedEv 1, BEvent.importedEv 0] :=
  ⟨rfl, rfl, rfl, rfl⟩

def cfgW2 : BridgeConfig :=
  ⟨[⟨true, MsgType.importW, 0⟩], true, fun _ => ⟨0, true⟩, fun _ => 0⟩

def dsW2 : List Directive :=
  [.deliver, .stepSetup, .stepSetup, .stepSetup, .stepSetup]

theorem C2_amended_fifo_drain_witness :
    isComplete (run cfgW2 dsW2) = true ∧
    (run cfgW2 dsW2).enqueueOrder = (run cfgW2 dsW2).drainOrder :=
  ⟨rfl, C2_amended_fifo_drain cfgW2 dsW2 rfl rfl⟩

set_option maxRecDepth 8000 in
theorem C3_amended_sequential_readiness_witness :
    seqReadyCondition envCE :=
  (C3_amended_sequential_readiness envCE).1.mp ⟨1, by rfl⟩
